import Mathlib

/-
  Verification of the majordummo mailing-list relay (deliver.py) against its
  natural-language specification.

  The Python program is shallowly embedded: the message is an ordered list of
  header pairs, the filesystem and the rate-limit store are explicit values
  threaded through the pipeline, and Python exceptions are modelled with
  Except.  Every definition follows the corresponding source function in
  deliver.py; comments cite the relevant behaviour of the Python runtime
  where it matters (dict membership, open modes, os.path.exists, sqlite3).
-/

namespace Majordummo

/-- A message header: (name, value), as stored by email.message.Message in
its internal headers list (compat32 policy stores plain string pairs). -/
abbrev Header := String × String

/-- The header part of a parsed message: an ordered list of header pairs.
The body plays no role in any claim and is not modelled. -/
abbrev Msg := List Header

/-- Python exceptions that the embedded code can raise. -/
inductive PyError
  | typeError
  | fileExists
  | smtpDisconnected
  | smtpConnectError
deriving DecidableEq

/-- Python str.lower() on header names.  String.toLower in core Lean is
defined by well-founded recursion over byte positions and does not reduce
definitionally, so the same per-character mapping is taken over the
character list. -/
def pyLower (s : String) : String :=
  ⟨s.data.map Char.toLower⟩

/-- Python str.strip() on header override values: drop leading and trailing
whitespace characters. -/
def pyStrip (s : String) : String :=
  ⟨((s.data.dropWhile Char.isWhitespace).reverse.dropWhile Char.isWhitespace).reverse⟩

/-- Message.__delitem__: rebuild the header list keeping only headers whose
lower-cased name differs from the lower-cased argument.  It never raises,
even when no header matches. -/
def delHeader (hs : Msg) (name : String) : Msg :=
  hs.filter (fun kv => decide (pyLower kv.1 ≠ pyLower name))

/-- Message.__setitem__: append a header at the end of the header list. -/
def setHeaderAppend (hs : Msg) (name value : String) : Msg :=
  hs ++ [(name, value)]

/-- The body of the whitelist loop of _deliver_message.  The Python for loop
iterates over a snapshot of the header names (Message.__iter__ walks the
list object captured when the loop starts, while __delitem__ installs a new
list), so the loop visits every original name once and deletes each name
whose lower-cased form is not whitelisted. -/
def wlGo (wl : List String) : List String → Msg → Msg
  | [], acc => acc
  | n :: ns, acc => wlGo wl ns (if pyLower n ∈ wl then acc else delHeader acc n)

/-- Step 1 of the header filter in _deliver_message: for every header name
in the original message, delete it unless its lower-cased form is in the
configured whitelist. -/
def whitelistPass (wl : List String) (hs : Msg) : Msg :=
  wlGo wl (hs.map Prod.fst) hs

/-- Step 2 of the header filter in _deliver_message: for each configured
(name, value) override, delete all occurrences of the name and append one
header carrying the stripped value. -/
def applyOverrides (ov : List (String × String)) (hs : Msg) : Msg :=
  ov.foldl (fun acc p => setHeaderAppend (delHeader acc p.1) p.1 (pyStrip p.2)) hs

/-- The configuration object, mirroring the defaults set up by Config in
deliver.py.  Every recognized key is always present in the Python dict;
optional keys hold None when the config file does not set them, which is
modelled by Option.  The smtp endpoint fields do not influence any modelled
behaviour (the SMTP server is abstracted by an outcome oracle) but are kept
for completeness. -/
structure Config where
  recipients : List String
  reject_non_recipients : Bool
  set_headers : List (String × String)
  header_whitelist : List String
  db : Option String
  per_user_ratelimit_secs : Nat
  archive_dir : Option String
  smtp_host : String := "localhost"
  smtp_port : Nat := 25
  smtp_mail_from : String := ""

/-- The whole header-filtering step of _deliver_message: whitelist pass,
then forced overrides. -/
def filterHeaders (cfg : Config) (hs : Msg) : Msg :=
  applyOverrides cfg.set_headers (whitelistPass cfg.header_whitelist hs)

/-! ### Characterisation of the whitelist pass -/

theorem wlGo_eq_filter (wl : List String) :
    ∀ (ns : List String) (acc : Msg),
      wlGo wl ns acc =
        acc.filter (fun kv =>
          decide (∀ n ∈ ns, pyLower n ∉ wl → pyLower kv.1 ≠ pyLower n)) := by
  intro ns
  induction ns with
  | nil =>
    intro acc
    simp [wlGo]
  | cons n ns ih =>
    intro acc
    by_cases h : pyLower n ∈ wl
    · rw [wlGo, if_pos h, ih]
      apply List.filter_congr
      intro kv _
      rw [decide_eq_decide]
      simp only [List.forall_mem_cons]
      constructor
      · intro hall
        exact ⟨fun hn => absurd h hn, hall⟩
      · intro hall
        exact hall.2
    · rw [wlGo, if_neg h, ih, delHeader, List.filter_filter]
      apply List.filter_congr
      intro kv _
      rw [Bool.and_comm, ← Bool.decide_and, decide_eq_decide]
      simp only [List.forall_mem_cons]
      constructor
      · intro hall
        exact ⟨fun _ => hall.1, hall.2⟩
      · intro hall
        exact ⟨hall.1 h, hall.2⟩

theorem whitelistPass_eq_filter (wl : List String) (hs : Msg) :
    whitelistPass wl hs = hs.filter (fun kv => decide (pyLower kv.1 ∈ wl)) := by
  rw [whitelistPass, wlGo_eq_filter]
  apply List.filter_congr
  intro kv hkv
  rw [decide_eq_decide]
  constructor
  · intro hall
    by_contra hnot
    exact hall kv.1 (List.mem_map_of_mem Prod.fst hkv) hnot rfl
  · intro hmem n _ hn heq
    exact hn (heq ▸ hmem)

/-! ### Characterisation of the override pass -/

/-- Lower-cased names of the configured overrides. -/
def ovNames (ov : List (String × String)) : List String :=
  ov.map (fun p => pyLower p.1)

/-- The override headers that survive the whole override pass: the pair at a
given position survives unless a later pair carries the same lower-cased
name (the later delete removes the earlier append). -/
def ovResidual : List (String × String) → Msg
  | [] => []
  | p :: ov =>
      (if pyLower p.1 ∈ ovNames ov then [] else [(p.1, pyStrip p.2)]) ++ ovResidual ov

theorem applyOverrides_eq (ov : List (String × String)) :
    ∀ hs : Msg,
      applyOverrides ov hs =
        hs.filter (fun kv => decide (pyLower kv.1 ∉ ovNames ov)) ++ ovResidual ov := by
  induction ov with
  | nil =>
    intro hs
    simp [applyOverrides, ovResidual, ovNames]
  | cons p ov ih =>
    intro hs
    have hstep : applyOverrides (p :: ov) hs =
        applyOverrides ov (delHeader hs p.1 ++ [(p.1, pyStrip p.2)]) := rfl
    rw [hstep, ih, List.filter_append, delHeader, List.filter_filter, ovResidual,
      List.append_assoc]
    congr 1
    · apply List.filter_congr
      intro kv _
      rw [Bool.and_comm, ← Bool.decide_and, decide_eq_decide]
      simp only [ovNames, List.map_cons, List.mem_cons, not_or]
    · congr 1
      by_cases h : pyLower p.1 ∈ ovNames ov
      · rw [if_pos h]
        simp [h]
      · rw [if_neg h]
        simp [h]

theorem ovResidual_mem {ov : List (String × String)} {kv : Header}
    (h : kv ∈ ovResidual ov) : ∃ p ∈ ov, kv = (p.1, pyStrip p.2) := by
  induction ov with
  | nil => simp [ovResidual] at h
  | cons p ov ih =>
    rw [ovResidual, List.mem_append] at h
    rcases h with h | h
    · by_cases hm : pyLower p.1 ∈ ovNames ov
      · rw [if_pos hm] at h
        simp at h
      · rw [if_neg hm] at h
        simp at h
        exact ⟨p, List.mem_cons_self p ov, h⟩
    · obtain ⟨q, hq, hkv⟩ := ih h
      exact ⟨q, List.mem_cons_of_mem p hq, hkv⟩

theorem ovResidual_names {ov : List (String × String)} {kv : Header}
    (h : kv ∈ ovResidual ov) : pyLower kv.1 ∈ ovNames ov := by
  obtain ⟨p, hp, hkv⟩ := ovResidual_mem h
  rw [hkv]
  exact List.mem_map_of_mem (fun q => pyLower q.1) hp

/-- The full header filter, rewritten as one filter over the original
headers followed by the surviving override headers. -/
theorem filterHeaders_eq (cfg : Config) (hs : Msg) :
    filterHeaders cfg hs =
      hs.filter (fun kv =>
          decide (pyLower kv.1 ∉ ovNames cfg.set_headers) &&
          decide (pyLower kv.1 ∈ cfg.header_whitelist)) ++
        ovResidual cfg.set_headers := by
  rw [filterHeaders, applyOverrides_eq, whitelistPass_eq_filter, List.filter_filter]

/-- Helper for the last-wins property: filtering the surviving override
headers for one lower-cased name yields exactly the pair whose name has no
later occurrence in the override list. -/
theorem ovResidual_filter_last (p : String × String) (vs : List (String × String))
    (hlast : ∀ q ∈ vs, pyLower q.1 ≠ pyLower p.1) :
    ∀ us : List (String × String),
      (ovResidual (us ++ p :: vs)).filter
          (fun kv => decide (pyLower kv.1 = pyLower p.1)) = [(p.1, pyStrip p.2)] := by
  intro us
  induction us with
  | nil =>
    rw [List.nil_append, ovResidual]
    have hnot : pyLower p.1 ∉ ovNames vs := by
      intro hmem
      obtain ⟨q, hq, heq⟩ := List.mem_map.mp hmem
      exact hlast q hq heq
    rw [if_neg hnot, List.filter_append]
    have h2 : (ovResidual vs).filter
        (fun kv => decide (pyLower kv.1 = pyLower p.1)) = [] := by
      rw [List.filter_eq_nil_iff]
      intro kv hkv
      simp only [decide_eq_true_eq]
      intro heq
      exact hnot (heq ▸ ovResidual_names hkv)
    rw [h2, List.append_nil]
    simp
  | cons u us ih =>
    rw [List.cons_append, ovResidual]
    have hpmem : pyLower p.1 ∈ ovNames (us ++ p :: vs) :=
      List.mem_map_of_mem (fun q => pyLower q.1)
        (List.mem_append_right us (List.mem_cons_self p vs))
    by_cases hm : pyLower u.1 ∈ ovNames (us ++ p :: vs)
    · rw [if_pos hm, List.nil_append]
      exact ih
    · rw [if_neg hm, List.filter_append]
      have hne : pyLower u.1 ≠ pyLower p.1 := by
        intro heq
        exact hm (heq ▸ hpmem)

      have h1 : List.filter (fun kv => decide (pyLower kv.1 = pyLower p.1))
          [(u.1, pyStrip u.2)] = [] := by
        simp [hne]
      rw [h1, List.nil_append]
      exact ih

/-- C3: after the header-filtering step, every remaining header name,
lower-cased, is in the configured whitelist, except names explicitly listed
in set_headers. -/
theorem filterHeaders_whitelist_invariant (cfg : Config) (hs : Msg) :
    ∀ kv ∈ filterHeaders cfg hs,
      pyLower kv.1 ∈ cfg.header_whitelist ∨ kv.1 ∈ cfg.set_headers.map Prod.fst := by
  intro kv hkv
  rw [filterHeaders_eq, List.mem_append] at hkv
  rcases hkv with h | h
  · rw [List.mem_filter] at h
    have h2 := h.2
    simp only [Bool.and_eq_true, decide_eq_true_eq] at h2
    exact Or.inl h2.2
  · obtain ⟨p, hp, hkv2⟩ := ovResidual_mem h
    have hfst : kv.1 = p.1 := by rw [hkv2]
    rw [hfst]
    exact Or.inr (List.mem_map_of_mem Prod.fst hp)

/-- Concrete configuration used by the whitelist-invariant witness. -/
def cfgW3 : Config :=
  { recipients := [], reject_non_recipients := true,
    set_headers := [("X-List", " test ")], header_whitelist := ["subject"],
    db := none, per_user_ratelimit_secs := 60, archive_dir := none }

/-- Witness for C3 at a concrete message: the surviving header Subject is
covered by the whitelist disjunct. -/
theorem filterHeaders_whitelist_invariant_witness :
    (("Subject", "hi") ∈ filterHeaders cfgW3 [("Subject", "hi"), ("Spam", "x")]) ∧
      pyLower (("Subject", "hi") : Header).1 ∈ cfgW3.header_whitelist ∨
        (("Subject", "hi") : Header).1 ∈ cfgW3.set_headers.map Prod.fst := by
  refine Or.inl ⟨by decide, ?_⟩
  have := filterHeaders_whitelist_invariant cfgW3 [("Subject", "hi"), ("Spam", "x")]
    ("Subject", "hi") (by decide)
  rcases this with h | h
  · exact h
  · exact absurd h (by decide)

/-- C9: the header filter is idempotent; filtering an already-filtered
message with the same configuration leaves it unchanged. -/
theorem filterHeaders_idempotent (cfg : Config) (hs : Msg) :
    filterHeaders cfg (filterHeaders cfg hs) = filterHeaders cfg hs := by
  rw [filterHeaders_eq cfg (filterHeaders cfg hs), filterHeaders_eq cfg hs,
    List.filter_append, List.filter_filter]
  have hres : (ovResidual cfg.set_headers).filter
      (fun kv => decide (pyLower kv.1 ∉ ovNames cfg.set_headers) &&
        decide (pyLower kv.1 ∈ cfg.header_whitelist)) = [] := by
    rw [List.filter_eq_nil_iff]
    intro kv hkv
    simp only [Bool.and_eq_true, decide_eq_true_eq]
    intro hcontra
    exact hcontra.1 (ovResidual_names hkv)
  rw [hres]
  simp only [Bool.and_self, List.append_nil]

/-- C6 (amended): for an override pair whose lower-cased name has no later
occurrence in set_headers, that header appears exactly once after
filtering, carrying the stripped configured value. -/
theorem set_headers_last_wins (cfg : Config) (hs : Msg)
    (us vs : List (String × String)) (p : String × String)
    (hsplit : cfg.set_headers = us ++ p :: vs)
    (hlast : ∀ q ∈ vs, pyLower q.1 ≠ pyLower p.1) :
    (filterHeaders cfg hs).filter (fun kv => decide (pyLower kv.1 = pyLower p.1)) =
      [(p.1, pyStrip p.2)] := by
  rw [filterHeaders_eq, List.filter_append, List.filter_filter]
  have hpmem : pyLower p.1 ∈ ovNames cfg.set_headers := by
    rw [hsplit]
    exact List.mem_map_of_mem (fun q => pyLower q.1)
      (List.mem_append_right us (List.mem_cons_self p vs))
  have h1 : hs.filter (fun kv =>
      decide (pyLower kv.1 = pyLower p.1) &&
        (decide (pyLower kv.1 ∉ ovNames cfg.set_headers) &&
          decide (pyLower kv.1 ∈ cfg.header_whitelist))) = [] := by
    rw [List.filter_eq_nil_iff]
    intro kv _
    simp only [Bool.and_eq_true, decide_eq_true_eq]
    intro hcontra
    exact hcontra.2.1 (hcontra.1 ▸ hpmem)
  rw [h1, List.nil_append, hsplit]
  exact ovResidual_filter_last p vs hlast us

/-- Concrete configuration for the last-wins witness: the spec scenario
where the forced header is not on the whitelist. -/
def cfgW6 : Config :=
  { recipients := [], reject_non_recipients := true,
    set_headers := [("X-List", " test ")], header_whitelist := ["subject"],
    db := none, per_user_ratelimit_secs := 60, archive_dir := none }

/-- Witness for the amended C6: with set_headers forcing X-List and a
whitelist excluding x-list, the filtered message carries X-List exactly
once with the stripped value. -/
theorem set_headers_last_wins_witness :
    (cfgW6.set_headers = [] ++ ("X-List", " test ") :: []) ∧
      (∀ q ∈ ([] : List (String × String)), pyLower q.1 ≠ pyLower "X-List") ∧
      (filterHeaders cfgW6 [("X-List", "old"), ("Subject", "hi")]).filter
          (fun kv => decide (pyLower kv.1 = pyLower "X-List")) =
        [("X-List", pyStrip " test ")] :=
  ⟨rfl, by simp,
    set_headers_last_wins cfgW6 [("X-List", "old"), ("Subject", "hi")] [] []
      ("X-List", " test ") rfl (by simp)⟩

/-- Concrete configuration refuting C6 as universally stated: two override
pairs share the lower-cased name x-list. -/
def cfgC6 : Config :=
  { recipients := [], reject_non_recipients := true,
    set_headers := [("X-List", "a"), ("x-list", "b")], header_whitelist := [],
    db := none, per_user_ratelimit_secs := 60, archive_dir := none }

/-- Counterexample to C6 as stated: with duplicate override names the
earlier pair ("X-List", "a") does not survive; only the later pair
("x-list", "b") appears after filtering. -/
theorem set_headers_counterexample :
    ¬ (∀ q ∈ cfgC6.set_headers,
        (filterHeaders cfgC6 []).filter (fun kv => decide (pyLower kv.1 = pyLower q.1)) =
          [(q.1, pyStrip q.2)]) := by
  intro h
  have hx := h ("X-List", "a") (by decide)
  exact absurd hx (by decide)

/-! ### Archive: filesystem model and the Archive component -/

/-- A small filesystem model: the set of existing directories and the files
with their byte contents (bytes modelled as String). -/
structure FS where
  dirs : List String
  files : List (String × String)
deriving DecidableEq

/-- The state of an Archive object: the configured directory (None when
archiving is disabled) and the lazily assigned basename. -/
structure ArchiveSt where
  dir : Option String
  base : Option String
deriving DecidableEq

/-- Python open(path, "wb") followed by write: create or truncate the file
at the path and store the payload.  Mode wb silently overwrites an existing
file; it can never raise FileExistsError (that would need mode xb). -/
def fsWriteWb (fs : FS) (path payload : String) : FS :=
  { fs with files := fs.files.filter (fun f => decide (f.1 ≠ path)) ++ [(path, payload)] }

/-- Archive._write: open the path in wb mode and write the payload.  Total,
because wb mode truncates instead of failing on an existing file. -/
def archiveWrite (fs : FS) (path payload : String) : Except PyError FS :=
  .ok (fsWriteWb fs path payload)

/-- os.path.join for the two-component joins used by the Archive. -/
def pathJoin (d b : String) : String := d ++ "/" ++ b

/-- Left-pad a string with zeros to the given width. -/
def zeroPad (w : Nat) (s : String) : String :=
  ⟨List.replicate (w - s.length) '0'⟩ ++ s

/-- The time-derived basename "{:016.0f}-{:03d}".format(time.time(), retry)
used by Archive._create_and_write. -/
def basename (now retry : Nat) : String :=
  zeroPad 16 (toString now) ++ "-" ++ zeroPad 3 (toString retry)

/-- os.path.exists as called from Archive.__init__.  genericpath.exists only
catches OSError and ValueError around os.stat; os.stat(None) raises
TypeError, which therefore propagates. -/
def osPathExists : Option String → FS → Except PyError Bool
  | none, _ => .error .typeError
  | some d, fs => .ok (decide (d ∈ fs.dirs))

/-- os.makedirs: record the directory as existing. -/
def osMakedirs : Option String → FS → Except PyError FS
  | none, _ => .error .typeError
  | some d, fs => .ok { fs with dirs := fs.dirs ++ [d] }

/-- Archive.__init__.  The Python guard is the dict-membership test
"archive_dir in config", which is always true because Config pre-populates
every recognized key, so the branch that would set _dir to None is dead and
the configured value (possibly None) always reaches os.path.exists. -/
def archiveInit (cfg : Config) (fs : FS) : Except PyError (ArchiveSt × FS) :=
  match osPathExists cfg.archive_dir fs with
  | .error e => .error e
  | .ok true => .ok ({ dir := cfg.archive_dir, base := none }, fs)
  | .ok false =>
    match osMakedirs cfg.archive_dir fs with
    | .error e => .error e
    | .ok fs2 => .ok ({ dir := cfg.archive_dir, base := none }, fs2)

/-- Python truthiness of self._dir in the "if not self._dir: return" guards:
falsy when None or the empty string. -/
def dirFalsy : Option String → Bool
  | none => true
  | some d => decide (d = "")

/-- The retry loop of Archive._create_and_write, with the remaining loop
iterations as fuel (the source allows 10).  The while-else clause raises
FileExistsError once all retries are used. -/
def cawLoop (d : String) (now : Nat) (ext payload : String) :
    Nat → Nat → FS → Except PyError (String × FS)
  | 0, _, _ => .error .fileExists
  | fuel + 1, retry, fs =>
    match archiveWrite fs (pathJoin d (basename now retry ++ ext)) payload with
    | .ok fs2 => .ok (basename now retry, fs2)
    | .error .fileExists => cawLoop d now ext payload fuel (retry + 1) fs
    | .error e => .error e

/-- Archive._create_and_write: on the first write of an attempt run the
retry loop and remember the chosen basename; on later writes reuse the
stored basename.  The callers only reach this with a truthy _dir, so the
directory is read with a default that is never used. -/
def create_and_write (a : ArchiveSt) (now : Nat) (ext payload : String) (fs : FS) :
    Except PyError (ArchiveSt × FS) :=
  match a.base with
  | none =>
    match cawLoop (a.dir.getD "") now ext payload 10 0 fs with
    | .error e => .error e
    | .ok (b, fs2) => .ok ({ a with base := some b }, fs2)
  | some b =>
    match archiveWrite fs (pathJoin (a.dir.getD "") (b ++ ext)) payload with
    | .error e => .error e
    | .ok fs2 => .ok (a, fs2)

/-- Archive.archive_original: no-op when _dir is falsy, else write the raw
message bytes to basename.txt. -/
def archive_original (a : ArchiveSt) (now : Nat) (fs : FS) (payload : String) :
    Except PyError (ArchiveSt × FS) :=
  if dirFalsy a.dir then .ok (a, fs)
  else create_and_write a now ".txt" payload fs

/-- Archive.log_failed: no-op when _dir is falsy, else write the
newline-joined recipient list to basename-fail.txt. -/
def log_failed (a : ArchiveSt) (now : Nat) (fs : FS) (recipients : List String) :
    Except PyError (ArchiveSt × FS) :=
  if dirFalsy a.dir then .ok (a, fs)
  else create_and_write a now "-fail.txt" (String.intercalate "\n" recipients) fs

/-- Archive.log_succeeded: no-op when _dir is falsy, else write the
newline-joined recipient list to basename-succeeded.txt. -/
def log_succeeded (a : ArchiveSt) (now : Nat) (fs : FS) (recipients : List String) :
    Except PyError (ArchiveSt × FS) :=
  if dirFalsy a.dir then .ok (a, fs)
  else create_and_write a now "-succeeded.txt" (String.intercalate "\n" recipients) fs

/-! ### Archive lemmas -/

theorem archiveInit_none {cfg : Config} (fs : FS) (h : cfg.archive_dir = none) :
    archiveInit cfg fs = .error .typeError := by
  simp [archiveInit, osPathExists, h]

theorem archiveInit_some {cfg : Config} (fs : FS) {d : String}
    (h : cfg.archive_dir = some d) :
    archiveInit cfg fs =
      .ok ({ dir := some d, base := none },
        if d ∈ fs.dirs then fs else { fs with dirs := fs.dirs ++ [d] }) := by
  by_cases hd : d ∈ fs.dirs
  · simp [archiveInit, osPathExists, osMakedirs, h, hd]
  · simp [archiveInit, osPathExists, osMakedirs, h, hd]

theorem cawLoop_first (d : String) (now : Nat) (ext payload : String)
    (fuel retry : Nat) (fs : FS) :
    cawLoop d now ext payload (fuel + 1) retry fs =
      .ok (basename now retry,
        fsWriteWb fs (pathJoin d (basename now retry ++ ext)) payload) := rfl

theorem create_and_write_ok (a : ArchiveSt) (now : Nat) (ext payload : String) (fs : FS) :
    ∃ a2 fs2, create_and_write a now ext payload fs = .ok (a2, fs2) := by
  match h : a.base with
  | none =>
    refine ⟨{ a with base := some (basename now 0) },
      fsWriteWb fs (pathJoin (a.dir.getD "") (basename now 0 ++ ext)) payload, ?_⟩
    rw [create_and_write, h]
    have h10 : (10 : Nat) = 9 + 1 := rfl
    rw [h10, cawLoop_first]
  | some b =>
    refine ⟨a, fsWriteWb fs (pathJoin (a.dir.getD "") (b ++ ext)) payload, ?_⟩
    rw [create_and_write, h]
    rfl

theorem archive_original_ok (a : ArchiveSt) (now : Nat) (fs : FS) (payload : String) :
    ∃ a2 fs2, archive_original a now fs payload = .ok (a2, fs2) := by
  by_cases h : dirFalsy a.dir
  · exact ⟨a, fs, by rw [archive_original, if_pos h]⟩
  · obtain ⟨a2, fs2, hw⟩ := create_and_write_ok a now ".txt" payload fs
    exact ⟨a2, fs2, by rw [archive_original, if_neg h]; exact hw⟩

/-- Configuration whose archive_dir is unset: every key exists in the
Python Config dict, with the optional ones holding None. -/
def cfgC1 : Config :=
  { recipients := ["a@x"], reject_non_recipients := true,
    set_headers := [], header_whitelist := ["subject"],
    db := none, per_user_ratelimit_secs := 60, archive_dir := none }

/-- C1: with no archive directory configured, the three archive methods are
indeed no-ops on a state whose _dir is None, but constructing the Archive
is not a no-op: Archive.__init__ reaches os.path.exists(None), which raises
TypeError instead of returning normally. -/
theorem archive_disabled_init_raises :
    archiveInit cfgC1 ⟨[], []⟩ = .error .typeError ∧
      archive_original ⟨none, none⟩ 0 ⟨[], []⟩ "raw" = .ok (⟨none, none⟩, ⟨[], []⟩) ∧
      log_failed ⟨none, none⟩ 0 ⟨[], []⟩ ["r@x"] = .ok (⟨none, none⟩, ⟨[], []⟩) ∧
      log_succeeded ⟨none, none⟩ 0 ⟨[], []⟩ ["r@x"] = .ok (⟨none, none⟩, ⟨[], []⟩) :=
  ⟨rfl, rfl, rfl, rfl⟩

/-- C5: a collision does not trigger the retry loop.  With a file already
present under the retry-0 basename, the first write opens it in wb mode,
which truncates: the attempt keeps the retry-0 basename, the old content is
replaced by the new payload, and no error is raised.  The except
FileExistsError handler and the 10-attempt bound are dead code. -/
theorem archive_collision_overwrites :
    archive_original ⟨some "arch", none⟩ 5
        ⟨["arch"], [(pathJoin "arch" (basename 5 0 ++ ".txt"), "old")]⟩ "new" =
      .ok (⟨some "arch", some (basename 5 0)⟩,
        ⟨["arch"], [(pathJoin "arch" (basename 5 0 ++ ".txt"), "new")]⟩) := by
  rfl

/-! ### Outgoing: the SMTP sender -/

/-- Outcome of one smtp.sendmail call for one recipient, as classified by
Outgoing._send_one: success, an exception other than a lost connection
(logged, reported as failure), or SMTPServerDisconnected (re-raised). -/
inductive SendOutcome
  | accepted
  | rejected
  | disconnect
deriving DecidableEq

/-- Python set.add on the success set (modelled as a duplicate-free list). -/
def setAdd (l : List String) (x : String) : List String :=
  if x ∈ l then l else l ++ [x]

/-- Python set(l): deduplicate a list. -/
def pySet (l : List String) : List String :=
  l.foldl setAdd []

/-- Python set difference list(set(recipients) - success), as built in the
SMTPServerDisconnected handler of Outgoing.send. -/
def pySetDiff (l s : List String) : List String :=
  (pySet l).filter (fun x => decide (x ∉ s))

/-- The per-recipient loop of Outgoing.send.  Accumulates the success set,
the failure list and the list of recipients for which sendmail was invoked;
the Bool reports whether the loop was aborted by a lost connection. -/
def sendLoop (oc : String → SendOutcome) :
    List String → List String → List String → List String →
      List String × List String × List String × Bool
  | [], succ, fail, att => (succ, fail, att, false)
  | r :: rs, succ, fail, att =>
    match oc r with
    | .accepted => sendLoop oc rs (setAdd succ r) fail (att ++ [r])
    | .rejected => sendLoop oc rs succ (fail ++ [r]) (att ++ [r])
    | .disconnect => (succ, fail, att ++ [r], true)

/-- The observable effect of one call to Outgoing.send: how many SMTP
sessions were opened, which recipients had a sendmail attempt, and either
the returned (succeeded, failed) pair or the exception that escaped. -/
structure SendCall where
  sessions : Nat
  attempted : List String
  result : Except PyError (List String × List String)

/-- Outgoing.send.  If the smtplib.SMTP constructor fails no session exists
and the exception escapes; otherwise the recipients are attempted in order;
a lost connection mid-loop replaces the failure list with
list(set(recipients) - success) and is not re-raised.  The message argument
does not influence the modelled control flow (server behaviour is the
oracle) and is omitted. -/
def outgoing_send (connectOk : Bool) (oc : String → SendOutcome)
    (recipients : List String) : SendCall :=
  if connectOk then
    match sendLoop oc recipients [] [] [] with
    | (succ, fail, att, disc) =>
      { sessions := 1, attempted := att,
        result := .ok (succ, if disc then pySetDiff recipients succ else fail) }
  else
    { sessions := 0, attempted := [], result := .error .smtpConnectError }

/-! ### Sender lemmas -/

theorem mem_setAdd {l : List String} {x y : String} :
    y ∈ setAdd l x ↔ y ∈ l ∨ y = x := by
  rw [setAdd]
  by_cases h : x ∈ l
  · rw [if_pos h]
    constructor
    · exact Or.inl
    · rintro (hy | rfl)
      · exact hy
      · exact h
  · rw [if_neg h]
    simp

theorem mem_pySet_aux {x : String} :
    ∀ (l acc : List String), x ∈ l.foldl setAdd acc ↔ x ∈ acc ∨ x ∈ l := by
  intro l
  induction l with
  | nil => simp
  | cons a l ih =>
    intro acc
    rw [List.foldl_cons, ih, mem_setAdd]
    simp only [List.mem_cons]
    tauto

theorem mem_pySet {x : String} {l : List String} : x ∈ pySet l ↔ x ∈ l := by
  rw [pySet, mem_pySet_aux]
  simp

/-- Elements of the loop results come from the accumulators or the visited
recipients. -/
theorem sendLoop_sub (oc : String → SendOutcome) :
    ∀ (rs succ fail att : List String) (x : String),
      (x ∈ (sendLoop oc rs succ fail att).1 → x ∈ succ ∨ x ∈ rs) ∧
      (x ∈ (sendLoop oc rs succ fail att).2.1 → x ∈ fail ∨ x ∈ rs) := by
  intro rs
  induction rs with
  | nil =>
    intro succ fail att x
    exact ⟨fun h => Or.inl h, fun h => Or.inl h⟩
  | cons r rs ih =>
    intro succ fail att x
    cases hr : oc r with
    | accepted =>
      refine ⟨fun h => ?_, fun h => ?_⟩
      · rw [sendLoop, hr] at h
        rcases (ih (setAdd succ r) fail (att ++ [r]) x).1 h with h2 | h2
        · rcases mem_setAdd.mp h2 with h3 | h3
          · exact Or.inl h3
          · exact Or.inr (h3 ▸ List.mem_cons_self r rs)
        · exact Or.inr (List.mem_cons_of_mem r h2)
      · rw [sendLoop, hr] at h
        rcases (ih (setAdd succ r) fail (att ++ [r]) x).2 h with h2 | h2
        · exact Or.inl h2
        · exact Or.inr (List.mem_cons_of_mem r h2)
    | rejected =>
      refine ⟨fun h => ?_, fun h => ?_⟩
      · rw [sendLoop, hr] at h
        rcases (ih succ (fail ++ [r]) (att ++ [r]) x).1 h with h2 | h2
        · exact Or.inl h2
        · exact Or.inr (List.mem_cons_of_mem r h2)
      · rw [sendLoop, hr] at h
        rcases (ih succ (fail ++ [r]) (att ++ [r]) x).2 h with h2 | h2
        · rcases List.mem_append.mp h2 with h3 | h3
          · exact Or.inl h3
          · rcases List.mem_singleton.mp h3 with rfl
            exact Or.inr (List.mem_cons_self x rs)
        · exact Or.inr (List.mem_cons_of_mem r h2)
    | disconnect =>
      refine ⟨fun h => ?_, fun h => ?_⟩
      · rw [sendLoop, hr] at h
        exact Or.inl h
      · rw [sendLoop, hr] at h
        exact Or.inl h

/-- Without a disconnect, every recipient lands in the success set or the
failure list. -/
theorem sendLoop_complete (oc : String → SendOutcome) :
    ∀ (rs succ fail att : List String) (x : String),
      (sendLoop oc rs succ fail att).2.2.2 = false →
      x ∈ rs ∨ x ∈ succ ∨ x ∈ fail →
      x ∈ (sendLoop oc rs succ fail att).1 ∨ x ∈ (sendLoop oc rs succ fail att).2.1 := by
  intro rs
  induction rs with
  | nil =>
    intro succ fail att x _ hx
    rcases hx with hx | hx | hx
    · exact absurd hx (List.not_mem_nil x)
    · exact Or.inl hx
    · exact Or.inr hx
  | cons r rs ih =>
    intro succ fail att x hdisc hx
    cases hr : oc r with
    | accepted =>
      rw [sendLoop, hr] at hdisc ⊢
      apply ih (setAdd succ r) fail (att ++ [r]) x hdisc
      rcases hx with hx | hx | hx
      · rcases List.mem_cons.mp hx with rfl | hx2
        · exact Or.inr (Or.inl (mem_setAdd.mpr (Or.inr rfl)))
        · exact Or.inl hx2
      · exact Or.inr (Or.inl (mem_setAdd.mpr (Or.inl hx)))
      · exact Or.inr (Or.inr hx)
    | rejected =>
      rw [sendLoop, hr] at hdisc ⊢
      apply ih succ (fail ++ [r]) (att ++ [r]) x hdisc
      rcases hx with hx | hx | hx
      · rcases List.mem_cons.mp hx with rfl | hx2
        · exact Or.inr (Or.inr (List.mem_append.mpr (Or.inr (List.mem_singleton.mpr rfl))))
        · exact Or.inl hx2
      · exact Or.inr (Or.inl hx)
      · exact Or.inr (Or.inr (List.mem_append.mpr (Or.inl hx)))
    | disconnect =>
      rw [sendLoop, hr] at hdisc
      exact absurd hdisc (by simp)

/-- The loop keeps success and failure aligned with the oracle, so the two
cannot share a member. -/
theorem sendLoop_oracle (oc : String → SendOutcome) :
    ∀ (rs succ fail att : List String),
      (∀ x ∈ succ, oc x = .accepted) → (∀ x ∈ fail, oc x = .rejected) →
      (∀ x ∈ (sendLoop oc rs succ fail att).1, oc x = .accepted) ∧
      (∀ x ∈ (sendLoop oc rs succ fail att).2.1, oc x = .rejected) := by
  intro rs
  induction rs with
  | nil =>
    intro succ fail att hs hf
    exact ⟨hs, hf⟩
  | cons r rs ih =>
    intro succ fail att hs hf
    cases hr : oc r with
    | accepted =>
      rw [sendLoop, hr]
      apply ih (setAdd succ r) fail (att ++ [r])
      · intro x hx
        rcases mem_setAdd.mp hx with hx2 | rfl
        · exact hs x hx2
        · exact hr
      · exact hf
    | rejected =>
      rw [sendLoop, hr]
      apply ih succ (fail ++ [r]) (att ++ [r])
      · exact hs
      · intro x hx
        rcases List.mem_append.mp hx with hx2 | hx2
        · exact hf x hx2
        · rcases List.mem_singleton.mp hx2 with rfl
          exact hr
    | disconnect =>
      rw [sendLoop, hr]
      exact ⟨hs, hf⟩

/-- C4: whenever Outgoing.send returns a pair, the two results partition
the recipient set: their union is the recipients and no recipient lies in
both. -/
theorem outgoing_send_partitions (connectOk : Bool) (oc : String → SendOutcome)
    (recipients succ fail : List String)
    (h : (outgoing_send connectOk oc recipients).result = .ok (succ, fail)) :
    (∀ r, r ∈ recipients ↔ (r ∈ succ ∨ r ∈ fail)) ∧
      (∀ r, ¬ (r ∈ succ ∧ r ∈ fail)) := by
  cases connectOk with
  | false => exact absurd h (by rw [outgoing_send]; simp)
  | true =>
    rw [outgoing_send, if_pos rfl] at h
    revert h
    match hloop : sendLoop oc recipients [] [] [] with
    | (s, f, att, disc) =>
      intro h
      simp only [Except.ok.injEq, Prod.mk.injEq] at h
      obtain ⟨hsucc, hfail⟩ := h
      have hsub := fun x => sendLoop_sub oc recipients [] [] [] x
      have horacle := sendLoop_oracle oc recipients [] [] []
        (by intro x hx; exact absurd hx (List.not_mem_nil x))
        (by intro x hx; exact absurd hx (List.not_mem_nil x))
      rw [hloop] at hsub horacle
      cases disc with
      | true =>
        subst hsucc
        rw [if_pos rfl] at hfail
        subst hfail
        constructor
        · intro r
          constructor
          · intro hr
            by_cases hrs : r ∈ s
            · exact Or.inl hrs
            · refine Or.inr ?_
              rw [pySetDiff]
              exact List.mem_filter.mpr ⟨mem_pySet.mpr hr, by simp [hrs]⟩
          · rintro (hr | hr)
            · rcases (hsub r).1 hr with h2 | h2
              · exact absurd h2 (List.not_mem_nil r)
              · exact h2
            · rw [pySetDiff] at hr
              exact mem_pySet.mp (List.mem_filter.mp hr).1
        · intro r ⟨h1, h2⟩
          rw [pySetDiff] at h2
          have := (List.mem_filter.mp h2).2
          simp only [decide_eq_true_eq] at this
          exact this h1
      | false =>
        subst hsucc
        rw [if_neg (by simp)] at hfail
        subst hfail
        constructor
        · intro r
          constructor
          · intro hr
            have := sendLoop_complete oc recipients [] [] [] r (by rw [hloop]) (Or.inl hr)
            rw [hloop] at this
            exact this
          · rintro (hr | hr)
            · rcases (hsub r).1 hr with h2 | h2
              · exact absurd h2 (List.not_mem_nil r)
              · exact h2
            · rcases (hsub r).2 hr with h2 | h2
              · exact absurd h2 (List.not_mem_nil r)
              · exact h2
        · intro r ⟨h1, h2⟩
          have ha := horacle.1 r h1
          have hb := horacle.2 r h2
          rw [ha] at hb
          exact absurd hb (by simp)

/-- Oracle for the partition witness: one accepted, one rejected
recipient. -/
def ocW4 : String → SendOutcome :=
  fun r => if r = "b@x" then .rejected else .accepted

/-- Witness for C4 at a concrete send: recipients a@x and b@x end up
partitioned into succeeded and failed. -/
theorem outgoing_send_partitions_witness :
    ((outgoing_send true ocW4 ["a@x", "b@x"]).result = .ok (["a@x"], ["b@x"])) ∧
      ((∀ r, r ∈ ["a@x", "b@x"] ↔ (r ∈ ["a@x"] ∨ r ∈ ["b@x"])) ∧
        (∀ r, ¬ (r ∈ ["a@x"] ∧ r ∈ ["b@x"]))) :=
  ⟨rfl, outgoing_send_partitions true ocW4 ["a@x", "b@x"] ["a@x"] ["b@x"] rfl⟩

/-- Disconnect aborts the remaining loop: with no disconnect among the
front recipients and a disconnect at the pivot, the loop stops right there. -/
theorem sendLoop_disconnect_split (oc : String → SendOutcome) (r : String)
    (ys : List String) (hr : oc r = .disconnect) :
    ∀ (xs succ fail att : List String), (∀ x ∈ xs, oc x ≠ .disconnect) →
      ∃ s f, sendLoop oc (xs ++ r :: ys) succ fail att = (s, f, att ++ (xs ++ [r]), true) := by
  intro xs
  induction xs with
  | nil =>
    intro succ fail att _
    exact ⟨succ, fail, by rw [List.nil_append, sendLoop, hr]; simp⟩
  | cons x xs ih =>
    intro succ fail att hxs
    have hx : oc x ≠ .disconnect := hxs x (List.mem_cons_self x xs)
    have hxs2 : ∀ y ∈ xs, oc y ≠ .disconnect := fun y hy => hxs y (List.mem_cons_of_mem x hy)
    cases hox : oc x with
    | accepted =>
      obtain ⟨s, f, hres⟩ := ih (setAdd succ x) fail (att ++ [x]) hxs2
      refine ⟨s, f, ?_⟩
      rw [List.cons_append, sendLoop, hox, hres]
      simp
    | rejected =>
      obtain ⟨s, f, hres⟩ := ih succ (fail ++ [x]) (att ++ [x]) hxs2
      refine ⟨s, f, ?_⟩
      rw [List.cons_append, sendLoop, hox, hres]
      simp
    | disconnect => exact absurd hox hx

/-- C7: a lost connection mid-loop ends the session gracefully: sendmail is
not attempted for any recipient after the disconnecting one, every
recipient not recorded as succeeded is returned in failed in bulk, and the
call returns a pair instead of propagating the exception. -/
theorem outgoing_send_disconnect (oc : String → SendOutcome)
    (xs : List String) (r : String) (ys : List String)
    (hxs : ∀ x ∈ xs, oc x ≠ .disconnect) (hr : oc r = .disconnect) :
    (outgoing_send true oc (xs ++ r :: ys)).attempted = xs ++ [r] ∧
      ∃ succ fail, (outgoing_send true oc (xs ++ r :: ys)).result = .ok (succ, fail) ∧
        ∀ x, x ∈ fail ↔ (x ∈ xs ++ r :: ys ∧ x ∉ succ) := by
  obtain ⟨s, f, hres⟩ := sendLoop_disconnect_split oc r ys hr xs [] [] [] hxs
  rw [List.nil_append] at hres
  constructor
  · rw [outgoing_send, if_pos rfl, hres]
  · refine ⟨s, pySetDiff (xs ++ r :: ys) s, ?_, ?_⟩
    · rw [outgoing_send, if_pos rfl, hres]
      rfl
    · intro x
      rw [pySetDiff, List.mem_filter, mem_pySet]
      simp

/-- Oracle for the disconnect witness: the server disconnects on the third
recipient. -/
def ocW7 : String → SendOutcome :=
  fun r => if r = "r3@x" then .disconnect else .accepted

/-- Witness for C7 at the spec scenario: three recipients, the server
disconnects on the third; r1 and r2 succeeded, r3 is failed in bulk. -/
theorem outgoing_send_disconnect_witness :
    ((∀ x ∈ ["r1@x", "r2@x"], ocW7 x ≠ SendOutcome.disconnect) ∧
        ocW7 "r3@x" = SendOutcome.disconnect) ∧
      ((outgoing_send true ocW7 (["r1@x", "r2@x"] ++ "r3@x" :: [])).attempted =
          ["r1@x", "r2@x"] ++ ["r3@x"] ∧
        ∃ succ fail,
          (outgoing_send true ocW7 (["r1@x", "r2@x"] ++ "r3@x" :: [])).result =
              .ok (succ, fail) ∧
            ∀ x, x ∈ fail ↔ (x ∈ ["r1@x", "r2@x"] ++ "r3@x" :: [] ∧ x ∉ succ)) :=
  ⟨⟨by decide, by decide⟩,
    outgoing_send_disconnect ocW7 ["r1@x", "r2@x"] "r3@x" [] (by decide) (by decide)⟩

/-! ### Rate-limit store and delivery pipeline -/

/-- sqlite3.connect(config[db]) in DB.__enter__: a None database argument
raises TypeError before any query runs (connect requires a str, bytes or
path-like object). -/
def dbConnect : Option String → Except PyError Unit
  | none => .error .typeError
  | some _ => .ok ()

/-- The rows of the most_recent_post table: one row per sender with the
timestamp of the most recent accepted post (REPLACE keeps the primary key
unique).  The schema itself is not modelled; CREATE TABLE IF NOT EXISTS
changes no row. -/
abbrev PostStore := List (String × Nat)

/-- The SELECT in DB.is_rate_limited: the timestamp stored for the sender,
if any. -/
def storeLookup (store : PostStore) (sender : String) : Option Nat :=
  (store.find? (fun e => e.1 == sender)).map Prod.snd

/-- DB.is_rate_limited: timestamp defaults to 0 for a sender never seen;
limited while timestamp + window exceeds the current time. -/
def is_rate_limited (store : PostStore) (window now : Nat) (sender : String) : Bool :=
  decide ((storeLookup store sender).getD 0 + window > now)

/-- DB.set_did_just_post: REPLACE INTO semantics, last write wins. -/
def set_did_just_post (store : PostStore) (sender : String) (now : Nat) : PostStore :=
  store.filter (fun e => decide (e.1 ≠ sender)) ++ [(sender, now)]

/-- Message.__getitem__ as used for message[From]: the value of the first
header whose name matches case-insensitively, None when absent. -/
def pyGetHeader (msg : Msg) (name : String) : Option String :=
  (msg.find? (fun kv => pyLower kv.1 == pyLower name)).map Prod.snd

/-- The environment one delivery attempt runs in: the wall clock, the SMTP
server behaviour (whether the connection opens, and the per-recipient
outcome oracle), and the two stdlib functions the pipeline calls on the
input, email.parser parsing and the address component of
email.utils.parseaddr, abstracted as functions. -/
structure Env where
  now : Nat
  connectOk : Bool
  outcome : String → SendOutcome
  parse : String → Msg
  parseAddr : Option String → String

/-- The mutable world one delivery attempt touches: the filesystem, the
post-history rows, the number of SMTP sessions opened so far and the
recipients for which sendmail has been invoked. -/
structure World where
  fs : FS
  store : PostStore
  sessions : Nat
  attempted : List String

/-- The sender address extracted by _deliver_message: parseaddr applied to
the first From header of the parsed message. -/
def senderOf (env : Env) (stdin : String) : String :=
  env.parseAddr (pyGetHeader (env.parse stdin) "From")

/-- _deliver_message: authorization check, rate-limit check, header
filtering, send inside the Outgoing context manager, post-history update,
outcome archival.  Outgoing.__exit__ returns True, so any exception raised
by the send is suppressed and succeeded and failed keep their
pre-assignment empty values.  The filtered message is computed as in the
source; the send oracle abstracts the server, so the message content does
not influence the modelled outcome. -/
def deliver_message (cfg : Config) (env : Env) (msg : Msg) (a : ArchiveSt) (w : World) :
    World × Except PyError (List String × List String) :=
  let sender := env.parseAddr (pyGetHeader msg "From")
  if cfg.reject_non_recipients && decide (sender ∉ cfg.recipients) then (w, .ok ([], []))
  else if is_rate_limited w.store cfg.per_user_ratelimit_secs env.now sender then
    (w, .ok ([], []))
  else
    let _filtered := filterHeaders cfg msg
    let call := outgoing_send env.connectOk env.outcome cfg.recipients
    let w1 : World := { w with sessions := w.sessions + call.sessions,
                               attempted := w.attempted ++ call.attempted }
    let sf := match call.result with
      | .ok sf => sf
      | .error _ => ([], [])
    let w2 : World := { w1 with store := set_did_just_post w1.store sender env.now }
    match (if sf.2.isEmpty then Except.ok (a, w2.fs)
           else log_failed a env.now w2.fs sf.2 : Except PyError (ArchiveSt × FS)) with
    | .error e => (w2, .error e)
    | .ok (a1, fs1) =>
      match (if sf.1.isEmpty then Except.ok (a1, fs1)
             else log_succeeded a1 env.now fs1 sf.1 : Except PyError (ArchiveSt × FS)) with
      | .error e => ({ w2 with fs := fs1 }, .error e)
      | .ok (_, fs2) => ({ w2 with fs := fs2 }, .ok sf)

/-- deliver: read stdin, construct the Archive, archive the original
message, parse it, open the rate-limit store and run _deliver_message.
The DB context manager close swallows its own errors and changes no row. -/
def deliver (cfg : Config) (env : Env) (stdin : String) (w0 : World) :
    World × Except PyError (List String × List String) :=
  match archiveInit cfg w0.fs with
  | .error e => (w0, .error e)
  | .ok (a, fs1) =>
    match archive_original a env.now fs1 stdin with
    | .error e => ({ w0 with fs := fs1 }, .error e)
    | .ok (a2, fs2) =>
      let msg := env.parse stdin
      match dbConnect cfg.db with
      | .error e => ({ w0 with fs := fs2 }, .error e)
      | .ok _ => deliver_message cfg env msg a2 { w0 with fs := fs2 }

/-- The filesystem after only the Archive construction and the archiving of
the original message: the reference value for claims stating that nothing
further was written. -/
def archiveOnly (cfg : Config) (now : Nat) (stdin : String) (fs : FS) : FS :=
  match archiveInit cfg fs with
  | .error _ => fs
  | .ok (a, fs1) =>
    match archive_original a now fs1 stdin with
    | .error _ => fs1
    | .ok (_, fs2) => fs2

/-- With an archive directory and a store path configured, deliver reduces
to _deliver_message on the world whose filesystem holds the archived
original. -/
theorem deliver_after_archive (cfg : Config) (env : Env) (stdin : String) (w0 : World)
    {d p : String} (hd : cfg.archive_dir = some d) (hdb : cfg.db = some p) :
    ∃ a2 : ArchiveSt,
      deliver cfg env stdin w0 =
        deliver_message cfg env (env.parse stdin) a2
          { w0 with fs := archiveOnly cfg env.now stdin w0.fs } := by
  obtain ⟨a2, fs2, h2⟩ := archive_original_ok { dir := some d, base := none } env.now
    (if d ∈ w0.fs.dirs then w0.fs else { w0.fs with dirs := w0.fs.dirs ++ [d] }) stdin
  refine ⟨a2, ?_⟩
  simp only [deliver, archiveOnly, archiveInit_some w0.fs hd, h2, hdb, dbConnect]

/-- A policy-rejected sender makes _deliver_message return the empty pair
while leaving the world untouched. -/
theorem deliver_message_reject (cfg : Config) (env : Env) (msg : Msg)
    (a : ArchiveSt) (w : World)
    (hrej : (cfg.reject_non_recipients &&
        decide (env.parseAddr (pyGetHeader msg "From") ∉ cfg.recipients)) = true ∨
      is_rate_limited w.store cfg.per_user_ratelimit_secs env.now
        (env.parseAddr (pyGetHeader msg "From")) = true) :
    deliver_message cfg env msg a w = (w, .ok ([], [])) := by
  by_cases h1 : (cfg.reject_non_recipients &&
      decide (env.parseAddr (pyGetHeader msg "From") ∉ cfg.recipients)) = true
  · simp only [deliver_message, h1, if_true]
  · rcases hrej with hb | hb
    · exact absurd hb h1
    · rw [Bool.not_eq_true] at h1
      simp only [deliver_message, h1, hb, Bool.false_eq_true, if_false, if_true]

/-- C8: a sender rejected by policy, either a non-recipient while
reject_non_recipients is enabled or a rate-limited sender, stops the
pipeline before the send step: no SMTP session is opened, sendmail is
never invoked, the post-history rows are unchanged, no outcome file is
written, and the only filesystem effect is the original message archived
before the check. -/
theorem deliver_policy_reject (cfg : Config) (env : Env) (stdin : String) (w0 : World)
    {d p : String} (hd : cfg.archive_dir = some d) (hdb : cfg.db = some p)
    (hrej : (cfg.reject_non_recipients = true ∧ senderOf env stdin ∉ cfg.recipients) ∨
      is_rate_limited w0.store cfg.per_user_ratelimit_secs env.now (senderOf env stdin) = true) :
    deliver cfg env stdin w0 =
      ({ w0 with fs := archiveOnly cfg env.now stdin w0.fs }, .ok ([], [])) := by
  obtain ⟨a2, hpre⟩ := deliver_after_archive cfg env stdin w0 hd hdb
  rw [hpre]
  apply deliver_message_reject
  rcases hrej with ⟨hrnr, hmem⟩ | hrl
  · left
    rw [senderOf] at hmem
    simp [hrnr, hmem]
  · right
    rw [senderOf] at hrl
    exact hrl

/-- Configuration for the policy-rejection witness. -/
def cfgW8 : Config :=
  { recipients := ["a@x"], reject_non_recipients := true,
    set_headers := [], header_whitelist := ["subject"],
    db := some "limits.db", per_user_ratelimit_secs := 60,
    archive_dir := some "arch" }

/-- Environment for the policy-rejection witness: the parser returns a From
header carrying the raw input and parseaddr extracts it unchanged. -/
def envW8 : Env :=
  { now := 100, connectOk := true, outcome := fun _ => .accepted,
    parse := fun s => [("From", s)], parseAddr := fun o => o.getD "" }

/-- Initial world for the pipeline witnesses. -/
def w0W8 : World := ⟨⟨[], []⟩, [], 0, []⟩

/-- Witness for C8: a non-recipient sender is rejected and only the
original is archived. -/
theorem deliver_policy_reject_witness :
    (cfgW8.archive_dir = some "arch" ∧ cfgW8.db = some "limits.db" ∧
        (cfgW8.reject_non_recipients = true ∧ senderOf envW8 "evil@x" ∉ cfgW8.recipients)) ∧
      deliver cfgW8 envW8 "evil@x" w0W8 =
        ({ w0W8 with fs := archiveOnly cfgW8 100 "evil@x" w0W8.fs }, .ok ([], [])) :=
  ⟨⟨rfl, rfl, rfl, by decide⟩,
    deliver_policy_reject cfgW8 envW8 "evil@x" w0W8 rfl rfl (Or.inl ⟨rfl, by decide⟩)⟩

/-- If Outgoing.send lets an exception escape, the call opened no session
and attempted no recipient: the only escaping exception is the failed
smtplib.SMTP constructor. -/
theorem outgoing_send_error (connectOk : Bool) (oc : String → SendOutcome)
    (recipients : List String) (e : PyError)
    (h : (outgoing_send connectOk oc recipients).result = .error e) :
    outgoing_send connectOk oc recipients =
      { sessions := 0, attempted := [], result := .error .smtpConnectError } := by
  cases connectOk with
  | false => rfl
  | true =>
    exfalso
    rw [outgoing_send, if_pos rfl] at h
    rcases hsl : sendLoop oc recipients [] [] [] with ⟨s, f, att, disc⟩
    rw [hsl] at h
    exact absurd h (by simp)

/-- C10: when Outgoing.send raises, for instance because the SMTP
connection cannot be opened at all, the Outgoing context-manager exit
suppresses the exception; the pipeline continues with succeeded and failed
both empty, still records the sender in the rate-limit store, and writes
no outcome archive file: the filesystem holds exactly the archived
original. -/
theorem deliver_send_error_swallowed (cfg : Config) (env : Env) (stdin : String)
    (w0 : World) {d p : String} (e : PyError)
    (hd : cfg.archive_dir = some d) (hdb : cfg.db = some p)
    (h1 : (cfg.reject_non_recipients && decide (senderOf env stdin ∉ cfg.recipients)) = false)
    (h2 : is_rate_limited w0.store cfg.per_user_ratelimit_secs env.now
      (senderOf env stdin) = false)
    (hsend : (outgoing_send env.connectOk env.outcome cfg.recipients).result = .error e) :
    deliver cfg env stdin w0 =
      ({ w0 with
          fs := archiveOnly cfg env.now stdin w0.fs
          store := set_did_just_post w0.store (senderOf env stdin) env.now },
        .ok ([], [])) := by
  obtain ⟨a2, hpre⟩ := deliver_after_archive cfg env stdin w0 hd hdb
  rw [hpre]
  rw [senderOf] at h1 h2 ⊢
  have hcall := outgoing_send_error env.connectOk env.outcome cfg.recipients e hsend
  simp only [deliver_message, h1, h2, Bool.false_eq_true, if_false, hcall,
    List.isEmpty_nil, if_true, List.append_nil, Nat.add_zero]

/-- Environment for the swallowed-send-exception witness: the SMTP
connection cannot be opened. -/
def envW10 : Env :=
  { now := 100, connectOk := false, outcome := fun _ => .accepted,
    parse := fun s => [("From", s)], parseAddr := fun o => o.getD "" }

/-- Witness for C10: an authorized sender, a dead SMTP server; the attempt
still completes with the empty pair, the post is recorded, and no outcome
file is written. -/
theorem deliver_send_error_swallowed_witness :
    (cfgW8.archive_dir = some "arch" ∧ cfgW8.db = some "limits.db" ∧
        (cfgW8.reject_non_recipients &&
          decide (senderOf envW10 "a@x" ∉ cfgW8.recipients)) = false ∧
        is_rate_limited w0W8.store cfgW8.per_user_ratelimit_secs 100
          (senderOf envW10 "a@x") = false ∧
        (outgoing_send envW10.connectOk envW10.outcome cfgW8.recipients).result =
          .error .smtpConnectError) ∧
      deliver cfgW8 envW10 "a@x" w0W8 =
        ({ w0W8 with
            fs := archiveOnly cfgW8 100 "a@x" w0W8.fs
            store := set_did_just_post w0W8.store (senderOf envW10 "a@x") 100 },
          .ok ([], [])) :=
  ⟨⟨rfl, rfl, by decide, by decide, rfl⟩,
    deliver_send_error_swallowed cfgW8 envW10 "a@x" w0W8 .smtpConnectError rfl rfl
      (by decide) (by decide) rfl⟩

/-- C2 (amended): with no store path configured the pipeline does not skip
rate limiting; DB.__enter__ calls sqlite3.connect(None), which raises
TypeError, so the attempt fails right after archiving the original, before
any check, send or store update. -/
theorem deliver_db_none_raises (cfg : Config) (env : Env) (stdin : String)
    (w0 : World) {d : String}
    (hd : cfg.archive_dir = some d) (hdb : cfg.db = none) :
    deliver cfg env stdin w0 =
      ({ w0 with fs := archiveOnly cfg env.now stdin w0.fs }, .error .typeError) := by
  obtain ⟨a2, fs2, h2⟩ := archive_original_ok { dir := some d, base := none } env.now
    (if d ∈ w0.fs.dirs then w0.fs else { w0.fs with dirs := w0.fs.dirs ++ [d] }) stdin
  simp only [deliver, archiveOnly, archiveInit_some w0.fs hd, h2, hdb, dbConnect]

/-- Configuration refuting C2 as stated: db absent, everything else sane. -/
def cfgC2 : Config :=
  { recipients := ["a@x"], reject_non_recipients := true,
    set_headers := [], header_whitelist := ["subject"],
    db := none, per_user_ratelimit_secs := 60, archive_dir := some "arch" }

/-- Environment for the C2 counterexample: a healthy SMTP server that would
accept every recipient, so only the store path stands in the way. -/
def envC2 : Env :=
  { now := 100, connectOk := true, outcome := fun _ => .accepted,
    parse := fun s => [("From", s)], parseAddr := fun o => o.getD "" }

/-- Witness for the amended C2 at a concrete configuration with db
absent. -/
theorem deliver_db_none_raises_witness :
    (cfgC2.archive_dir = some "arch" ∧ cfgC2.db = none) ∧
      deliver cfgC2 envC2 "a@x" w0W8 =
        ({ w0W8 with fs := archiveOnly cfgC2 envC2.now "a@x" w0W8.fs }, .error .typeError) :=
  ⟨⟨rfl, rfl⟩, deliver_db_none_raises cfgC2 envC2 "a@x" w0W8 rfl rfl⟩

/-- Counterexample to C2 as stated: the sender is an authorized recipient
and the server is reachable, yet with db absent the attempt does not
complete normally and nothing is sent; it raises TypeError while opening
the store. -/
theorem deliver_db_none_counterexample :
    "a@x" ∈ cfgC2.recipients ∧
      (deliver cfgC2 envC2 "a@x" ⟨⟨[], []⟩, [], 0, []⟩).2 = .error .typeError ∧
      (deliver cfgC2 envC2 "a@x" ⟨⟨[], []⟩, [], 0, []⟩).1.attempted = [] ∧
      (deliver cfgC2 envC2 "a@x" ⟨⟨[], []⟩, [], 0, []⟩).1.sessions = 0 :=
  ⟨by decide, rfl, rfl, rfl⟩

end Majordummo
